import Mathlib

/-
Verification of the aggregation and segmentation core of the
Supermarket-Sales-Analysis repository (supermarket_analysis.py,
run_analysis.py), as a shallow embedding.

Numeric columns are embedded as rationals (the scripts use machine
floats; the rational embedding is the exact-arithmetic idealization).
The real-valued parts (standardization, k-means, Pearson correlation)
live over the reals because they divide by square roots.
-/

/-- One row of the loaded CSV table, with the columns the analyzer
touches.  Defaults let the concrete test tables mention only the fields
a claim is about. -/
structure Record where
  date : String := ""
  branch : String := ""
  city : String := ""
  customerType : String := ""
  gender : String := ""
  productLine : String := ""
  unitPrice : ℚ := 0
  quantity : ℚ := 0
  payment : String := ""
  sales : ℚ := 0
  grossIncome : ℚ := 0
  rating : ℚ := 0

/-- The in-memory table self.df: an ordered sequence of records. -/
abbrev Table := List Record

/-- The column total df.Sales.sum() used for the Total Sales line. -/
def totalSales (t : Table) : ℚ := (t.map Record.sales).sum

/-- Boolean string comparison used to model the sorted group keys that
pandas groupby produces (groupby sorts keys ascending by default). -/
def strLeB (a b : String) : Bool := decide (a ≤ b)

/-- The group keys of df.groupby(key): the distinct key values, in
ascending order. -/
def keysOf (key : Record → String) (t : Table) : List String :=
  ((t.map key).dedup).mergeSort strLeB

/-- The rows of one group: df[df[key] == k]. -/
def groupRows (key : Record → String) (t : Table) (k : String) : Table :=
  t.filter (fun r => decide (key r = k))

/-- The numeric column of one group. -/
def groupVals (key : Record → String) (num : Record → ℚ) (t : Table) (k : String) :
    List ℚ :=
  (groupRows key t k).map num

/-- Per-group count aggregate. -/
def groupCount (key : Record → String) (num : Record → ℚ) (t : Table) (k : String) :
    ℕ :=
  (groupVals key num t k).length

/-- Per-group sum aggregate. -/
def groupSum (key : Record → String) (num : Record → ℚ) (t : Table) (k : String) :
    ℚ :=
  (groupVals key num t k).sum

/-- The pandas mean of a list of values: sum divided by length
(0/0 = 0 for the empty list, matching the rational field convention). -/
def meanQ (l : List ℚ) : ℚ := l.sum / (l.length : ℚ)

/-- Per-group mean aggregate, Series.mean of the group column. -/
def groupMean (key : Record → String) (num : Record → ℚ) (t : Table) (k : String) :
    ℚ :=
  meanQ (groupVals key num t k)

/-- Round to the nearest integer, ties to even: the rounding used by
DataFrame.round (numpy round half to even). -/
def roundHalfEven (x : ℚ) : ℤ :=
  if x - ⌊x⌋ < (1 : ℚ)/2 then ⌊x⌋
  else if (1 : ℚ)/2 < x - ⌊x⌋ then ⌊x⌋ + 1
  else if 2 ∣ ⌊x⌋ then ⌊x⌋ else ⌊x⌋ + 1

/-- DataFrame.round(2): round to two decimal places, ties to even. -/
def round2 (x : ℚ) : ℚ := ((roundHalfEven (100 * x) : ℚ)) / 100

/-- The printed branch aggregate row for key k:
df.groupby(Branch).Sales.agg([count, sum, mean]).round(2), as the
triple (count, sum, mean) after rounding. -/
def branchStats (t : Table) (k : String) : ℚ × ℚ × ℚ :=
  ((round2 (groupCount Record.branch Record.sales t k : ℚ)),
   (round2 (groupSum Record.branch Record.sales t k)),
   (round2 (groupMean Record.branch Record.sales t k)))

/-- The sorted branch keys of the table. -/
def branchKeys (t : Table) : List String := keysOf Record.branch t

/-- The sorted product-line keys of the table. -/
def productKeys (t : Table) : List String := keysOf Record.productLine t

/-- product_sales = df.groupby(Product line).Sales.sum(), as a list of
(key, sum) pairs in key order. -/
def productSales (t : Table) : List (String × ℚ) :=
  (productKeys t).map (fun k => (k, groupSum Record.productLine Record.sales t k))

/-- product_sales.sort_values(ascending=False): the per-group sums
sorted in descending order of the sum. -/
def productSalesSorted (t : Table) : List (String × ℚ) :=
  (productSales t).mergeSort (fun a b => decide (b.2 ≤ a.2))

/-- The 3-row test table: sales 10, 20, 30 on branches A, A, B. -/
def tableAAB : Table :=
  [{ branch := "A", sales := 10 }, { branch := "A", sales := 20 },
   { branch := "B", sales := 30 }]

/-- A 3-row table whose single branch group has mean 5/3, which rounds
to 1.67 while the rounded sum divided by the count is 5/3. -/
def tableMeanRound : Table :=
  [{ branch := "A", sales := 1 }, { branch := "A", sales := 2 },
   { branch := "A", sales := 2 }]

/- ===== real-valued layer: standardization, correlation, k-means ===== -/

/-- A rational column cast into the reals. -/
noncomputable def liftR (l : List ℚ) : List ℝ := l.map (Rat.cast : ℚ → ℝ)

/-- Mean of a real column (0 for the empty column, by the field
convention for 0/0). -/
noncomputable def meanR (l : List ℝ) : ℝ := l.sum / (l.length : ℝ)

/-- Population variance of a real column: the variance StandardScaler
computes (ddof = 0). -/
noncomputable def popVar (l : List ℝ) : ℝ :=
  ((l.map (fun x => (x - meanR l)^2)).sum) / (l.length : ℝ)

/-- StandardScaler per-feature scale: the square root of the population
variance, with a zero scale replaced by 1 (sklearn handles zeros in the
scale this way), so a constant feature is only centered. -/
noncomputable def scaleOf (l : List ℝ) : ℝ :=
  if popVar l = 0 then 1 else Real.sqrt (popVar l)

/-- StandardScaler.fit_transform on one feature column. -/
noncomputable def standardize (l : List ℝ) : List ℝ :=
  l.map (fun x => (x - meanR l) / scaleOf l)

/-- The clustering features, in source order: Sales, Quantity, Rating. -/
def featOf : Fin 3 → Record → ℚ :=
  ![Record.sales, Record.quantity, Record.rating]

/-- Feature column j of the table, as reals. -/
noncomputable def featColR (j : Fin 3) (t : Table) : List ℝ :=
  liftR (t.map (featOf j))

/-- The fixed numeric columns of the correlation heatmap, in source
order: Unit price, Quantity, Sales, Rating, gross income. -/
def numFieldOf : Fin 5 → Record → ℚ :=
  ![Record.unitPrice, Record.quantity, Record.sales, Record.rating,
    Record.grossIncome]

/-- Numeric column i of the table, as reals. -/
noncomputable def numColR (i : Fin 5) (t : Table) : List ℝ :=
  liftR (t.map (numFieldOf i))

/-- Centered product sum of two columns: the shared numerator of the
Pearson formula (the sample-size factors of covariance and standard
deviations cancel in the ratio). -/
noncomputable def covSum (a b : List ℝ) : ℝ :=
  ((a.zip b).map (fun p => (p.1 - meanR a) * (p.2 - meanR b))).sum

/-- Pearson correlation of two equally long columns, as df.corr
computes it.  A zero denominator (a constant column, where pandas
produces NaN) falls under the division-by-zero convention; in either
reading the entry is not 1. -/
noncomputable def corrOf (a b : List ℝ) : ℝ :=
  covSum a b / (Real.sqrt (covSum a a) * Real.sqrt (covSum b b))

/-- Entry (i, j) of the correlation matrix over the five numeric
columns. -/
noncomputable def corrMatrix (t : Table) (i j : Fin 5) : ℝ :=
  corrOf (numColR i t) (numColR j t)

/-- A row of the standardized feature matrix. -/
abbrev Pt := ℝ × ℝ × ℝ

/-- The three current centroids. -/
abbrev Cent := Pt × Pt × Pt

/-- Squared Euclidean distance in standardized feature space. -/
noncomputable def sqDist (p q : Pt) : ℝ :=
  (p.1 - q.1)^2 + (p.2.1 - q.2.1)^2 + (p.2.2 - q.2.2)^2

/-- Index of the nearest centroid, ties to the lowest index (argmin of
the distances). -/
noncomputable def nearest (c : Cent) (p : Pt) : Fin 3 :=
  if sqDist p c.1 ≤ sqDist p c.2.1 then
    (if sqDist p c.1 ≤ sqDist p c.2.2 then 0 else 2)
  else
    (if sqDist p c.2.1 ≤ sqDist p c.2.2 then 1 else 2)

/-- Mean point of an assigned cluster; an empty cluster keeps its
previous centroid. -/
noncomputable def meanPt (ps : List Pt) (old : Pt) : Pt :=
  if ps = [] then old
  else (meanR (ps.map (fun p => p.1)), meanR (ps.map (fun p => p.2.1)),
        meanR (ps.map (fun p => p.2.2)))

/-- One Lloyd iteration: assign every point to its nearest centroid and
recompute each centroid as the mean of its points. -/
noncomputable def lloydStep (pts : List Pt) (c : Cent) : Cent :=
  (meanPt (pts.filter (fun p => decide (nearest c p = 0))) c.1,
   meanPt (pts.filter (fun p => decide (nearest c p = 1))) c.2.1,
   meanPt (pts.filter (fun p => decide (nearest c p = 2))) c.2.2)

/-- Lloyd iteration until the centroids are a fixpoint (convergence) or
the iteration cap is hit; KMeans defaults to max_iter = 300. -/
noncomputable def lloydIter : Nat → List Pt → Cent → Cent
  | 0, _, c => c
  | n + 1, pts, c =>
      if lloydStep pts c = c then c else lloydIter n pts (lloydStep pts c)

/-- Centroid initialization.  KMeans(random_state=42) runs seeded
k-means++, a deterministic function of the input points for the fixed
seed; it is modeled as the deterministic choice of the first three
points, and as in sklearn it requires n_samples at least n_clusters = 3
(otherwise fit raises, modeled by none). -/
def initCent3 : List Pt → Option Cent
  | p0 :: p1 :: p2 :: _ => some (p0, p1, p2)
  | _ => none

/-- KMeans(n_clusters=3, random_state=42).fit_predict: a cluster label
for every point, or an error for fewer than 3 points. -/
noncomputable def fitPredict3 (pts : List Pt) : Option (List Nat) :=
  (initCent3 pts).map
    (fun c0 => pts.map (fun p => (nearest (lloydIter 300 pts c0) p).val))

/-- The rows of the standardized feature matrix X_scaled. -/
noncomputable def standPoints (t : Table) : List Pt :=
  (standardize (featColR 0 t)).zip
    ((standardize (featColR 1 t)).zip (standardize (featColR 2 t)))

/-- The Customer_Segment column produced by advanced_analysis: one
cluster id per record, or an error for tables too small to cluster. -/
noncomputable def segmentLabels (t : Table) : Option (List Nat) :=
  fitPredict3 (standPoints t)

/- ===== run_analysis.py entry point model ===== -/

/-- What one run of run_analysis.py observes about its environment:
which required libraries import, whether the input file exists, and
whether some exception is raised inside the analysis. -/
structure SysEnv where
  pandasOk : Bool
  numpyOk : Bool
  matplotlibOk : Bool
  seabornOk : Bool
  plotlyOk : Bool
  sklearnOk : Bool
  dataFileExists : Bool
  analysisRaises : Bool

/-- check_dependencies: true exactly when all six required packages
import. -/
def checkDependencies (e : SysEnv) : Bool :=
  e.pandasOk && e.numpyOk && e.matplotlibOk && e.seabornOk && e.plotlyOk
    && e.sklearnOk

/-- run_analysis: false when the data file is missing, or when any
exception escapes the analysis and is caught by the top-level except
branch; true when the full pipeline runs. -/
def runAnalysisOk (e : SysEnv) : Bool :=
  e.dataFileExists && !e.analysisRaises

/-- The lines check_dependencies prints. -/
def checkDepsOutput (e : SysEnv) : List String :=
  if checkDependencies e then ["✅ All dependencies are installed"]
  else ["❌ Missing required packages:", "💡 Install them using requirements"]

/-- The lines run_analysis prints along its three paths. -/
def runAnalysisOutput (e : SysEnv) : List String :=
  if !e.dataFileExists then
    ["🔍 Checking for data file...", "❌ Data file not found"]
  else if e.analysisRaises then
    ["🔍 Checking for data file...", "✅ Data file found",
     "❌ Error running analysis"]
  else
    ["🔍 Checking for data file...", "✅ Data file found"]

/-- Everything main prints before terminating. -/
def mainOutput (e : SysEnv) : List String :=
  ["🏪 Supermarket Sales Analysis"] ++ checkDepsOutput e
    ++ (if !(checkDependencies e) then []
        else runAnalysisOutput e
          ++ (if runAnalysisOk e then ["🎉 Analysis completed successfully!"]
              else ["❌ Analysis failed"]))

/-- The exit code of main: sys.exit(1) when dependencies are missing or
run_analysis returns false, otherwise main returns normally with exit
code 0. -/
def mainExit (e : SysEnv) : Nat :=
  if !(checkDependencies e) then 1
  else if runAnalysisOk e then 0 else 1

/-- Whether the transcript contains one of the failure messages main or
its helpers print on an error path. -/
def errorPrinted (e : SysEnv) : Bool :=
  (mainOutput e).contains "❌ Missing required packages:"
    || (mainOutput e).contains "❌ Analysis failed"

/- ===== concrete tables for witnesses and counterexamples ===== -/

/-- A 2-row table: too small for 3-means. -/
def tableTwo : Table :=
  [{ branch := "A", sales := 1 }, { branch := "B", sales := 2 }]

/-- A 3-row table whose Sales column is constant (5, 5, 5) while the
other numeric columns vary. -/
def tableConstSales : Table :=
  [{ branch := "A", sales := 5, quantity := 1, rating := 7 },
   { branch := "A", sales := 5, quantity := 2, rating := 8 },
   { branch := "B", sales := 5, quantity := 3, rating := 9 }]

/- ===== helper lemmas ===== -/

/-- Summing an if-then-else that adds a over the single key c of a
duplicate-free key list. -/
theorem sum_map_ite_add (g : String → ℚ) (a : ℚ) (c : String) :
    ∀ (K : List String), K.Nodup → c ∈ K →
      (K.map (fun k => if c = k then a + g k else g k)).sum = a + (K.map g).sum := by
  intro K
  induction K with
  | nil => intro _ hc; cases hc
  | cons k K ih =>
    intro hnd hc
    rcases List.nodup_cons.mp hnd with ⟨hk, hndK⟩
    by_cases h : c = k
    · subst h
      have hmap : K.map (fun x => if c = x then a + g x else g x) = K.map g := by
        refine List.map_congr_left ?_
        intro x hx
        have : c ≠ x := fun hcx => hk (hcx ▸ hx)
        simp [this]
      simp [hmap, add_assoc]
    · have hcK : c ∈ K := by
        rcases List.mem_cons.mp hc with h1 | h1
        · exact absurd h1 h
        · exact h1
      simp only [List.map_cons, List.sum_cons, if_neg h, ih hndK hcK]
      ring

/-- Fibre decomposition of a list sum: summing the per-group sums over
any duplicate-free key list covering the rows gives the total sum. -/
theorem sum_filter_groups (key : Record → String) (f : Record → ℚ) :
    ∀ (l : Table) (K : List String), K.Nodup → (∀ r ∈ l, key r ∈ K) →
      (K.map (fun k => ((l.filter (fun r => decide (key r = k))).map f).sum)).sum
        = (l.map f).sum := by
  intro l
  induction l with
  | nil => intro K _ _; simp
  | cons x xs ih =>
    intro K hnd hmem
    have hx : key x ∈ K := hmem x (List.mem_cons_self x xs)
    have hstep : K.map
        (fun k => (((x :: xs).filter (fun r => decide (key r = k))).map f).sum)
        = K.map (fun k =>
            if key x = k then
              f x + ((xs.filter (fun r => decide (key r = k))).map f).sum
            else ((xs.filter (fun r => decide (key r = k))).map f).sum) := by
      refine List.map_congr_left ?_
      intro k _
      by_cases h : key x = k
      · simp [List.filter_cons, h]
      · simp [List.filter_cons, h]
    rw [hstep,
      sum_map_ite_add (fun k => ((xs.filter (fun r => decide (key r = k))).map f).sum)
        (f x) (key x) K hnd hx,
      ih K hnd (fun r hr => hmem r (List.mem_cons_of_mem x hr))]
    simp

/-- Every key of a row is among the sorted distinct keys. -/
theorem key_mem_keysOf (key : Record → String) (t : Table) (r : Record)
    (hr : r ∈ t) : key r ∈ keysOf key t := by
  unfold keysOf
  exact List.mem_mergeSort.mpr (List.mem_dedup.mpr (List.mem_map_of_mem key hr))

/-- The sorted distinct keys are duplicate-free. -/
theorem nodup_keysOf (key : Record → String) (t : Table) : (keysOf key t).Nodup := by
  unfold keysOf
  exact ((List.mergeSort_perm ((t.map key).dedup) strLeB).symm).nodup
    (List.nodup_dedup (t.map key))

/- ===== claim theorems (aggregation) ===== -/

/-- C1: for every table and every partitioning categorical field, the
sum of the per-group sums of a numeric field over all groups equals the
sum of that field over all records; in particular for branch and sales
it equals totalSales. -/
theorem groupedSum_eq_totalSum (key : Record → String) (num : Record → ℚ)
    (t : Table) :
    ((keysOf key t).map (fun k => groupSum key num t k)).sum = (t.map num).sum := by
  unfold groupSum groupVals groupRows
  exact sum_filter_groups key num t (keysOf key t) (nodup_keysOf key t)
    (key_mem_keysOf key t)

/-- C2 (counterexample): on the table with sales 1, 2, 2 in one branch
group, the reported (rounded to two decimals) mean 1.67 differs from
the reported sum divided by the reported count, 5/3. -/
theorem reported_mean_ne_sum_div_count :
    (branchStats tableMeanRound "A").2.2
      ≠ (branchStats tableMeanRound "A").2.1 / (branchStats tableMeanRound "A").1 := by
  simp only [tableMeanRound, branchStats, groupCount, groupSum, groupMean, groupVals,
    groupRows, meanQ, round2, roundHalfEven, List.filter, List.map,
    List.sum_cons, List.sum_nil, List.length_cons, List.length_nil]
  norm_num

/-- C2 (amended): before the display rounding, the mean aggregate of
every group equals its sum aggregate divided by its count aggregate,
for every grouping key and numeric field. -/
theorem groupMean_eq_groupSum_div_count (key : Record → String)
    (num : Record → ℚ) (t : Table) (k : String) :
    groupMean key num t k = groupSum key num t k / (groupCount key num t k : ℚ) :=
  rfl

/-- C7: the ranked product-line aggregate is sorted in descending order
of the per-group sum. -/
theorem productSalesSorted_desc (t : Table) :
    (productSalesSorted t).Pairwise (fun a b => b.2 ≤ a.2) := by
  unfold productSalesSorted
  refine List.Pairwise.imp ?_
    (List.sorted_mergeSort ?_ ?_ (productSales t))
  · intro a b h
    exact of_decide_eq_true h
  · intro a b c hab hbc
    simp only [decide_eq_true_eq] at *
    exact le_trans hbc hab
  · intro a b
    simp only [Bool.or_eq_true, decide_eq_true_eq]
    exact le_total b.2 a.2

/-- C8: on the table with sales 10, 20, 30 for branches A, A, B, the
branch aggregate reports count 2, sum 30, mean 15 for A and count 1,
sum 30, mean 30 for B. -/
theorem branch_aggregate_concrete :
    branchStats tableAAB "A" = (2, 30, 15)
      ∧ branchStats tableAAB "B" = (1, 30, 30) := by
  simp only [tableAAB, branchStats, groupCount, groupSum, groupMean, groupVals,
    groupRows, meanQ, round2, roundHalfEven, List.filter, List.map,
    List.sum_cons, List.sum_nil, List.length_cons, List.length_nil]
  norm_num

/-- Standardization keeps the column length. -/
theorem standardize_length (l : List ℝ) : (standardize l).length = l.length := by
  simp [standardize]

/-- A feature column has one entry per record. -/
theorem featColR_length (j : Fin 3) (t : Table) :
    (featColR j t).length = t.length := by
  unfold featColR liftR
  rw [List.length_map, List.length_map]

/-- The standardized feature matrix has one row per record. -/
theorem standPoints_length (t : Table) : (standPoints t).length = t.length := by
  simp [standPoints, List.length_zip, standardize_length, featColR_length]

/-- Initialization fails on fewer than 3 points. -/
theorem initCent3_eq_none (pts : List Pt) (h : pts.length < 3) :
    initCent3 pts = none := by
  rcases pts with _ | ⟨a, _ | ⟨b, _ | ⟨c, r⟩⟩⟩
  · rfl
  · rfl
  · rfl
  · simp only [List.length_cons] at h
    omega

/-- Initialization succeeds on at least 3 points. -/
theorem initCent3_eq_some (pts : List Pt) (h : 3 ≤ pts.length) :
    ∃ c, initCent3 pts = some c := by
  rcases pts with _ | ⟨a, _ | ⟨b, _ | ⟨c, r⟩⟩⟩
  · simp at h
  · simp at h
  · simp at h
  · exact ⟨(a, b, c), rfl⟩

/-- C3: the segmentation (with its fixed seed baked into the embedding)
is a deterministic function of the loaded table: two runs on identical
input produce identical cluster-assignment vectors. -/
theorem segmentLabels_deterministic (t1 t2 : Table) (h : t1 = t2) :
    segmentLabels t1 = segmentLabels t2 := by
  rw [h]

/-- Witness for C3 at a concrete table. -/
theorem segmentLabels_deterministic_witness :
    tableAAB = tableAAB ∧ segmentLabels tableAAB = segmentLabels tableAAB :=
  ⟨rfl, segmentLabels_deterministic tableAAB tableAAB rfl⟩

/-- C4: when the segmentation runs on a table with at least 3 records
(so the clustering is defined at all), it attaches exactly one cluster
label to every record, and every label lies in the interval [0, 3). -/
theorem segmentLabels_total_inRange (t : Table) (h : 3 ≤ t.length) :
    ∃ ls, segmentLabels t = some ls ∧ ls.length = t.length ∧ ∀ l ∈ ls, l < 3 := by
  obtain ⟨c, hc⟩ :=
    initCent3_eq_some (standPoints t) (by rw [standPoints_length]; exact h)
  refine ⟨(standPoints t).map
      (fun p => (nearest (lloydIter 300 (standPoints t) c) p).val), ?_, ?_, ?_⟩
  · unfold segmentLabels fitPredict3
    rw [hc]
    rfl
  · rw [List.length_map, standPoints_length]
  · intro l hl
    rcases List.mem_map.mp hl with ⟨p, _, rfl⟩
    exact (nearest (lloydIter 300 (standPoints t) c) p).isLt

/-- Witness for C4 at a concrete 3-row table. -/
theorem segmentLabels_total_inRange_witness :
    3 ≤ tableAAB.length
      ∧ ∃ ls, segmentLabels tableAAB = some ls ∧ ls.length = tableAAB.length
          ∧ ∀ l ∈ ls, l < 3 :=
  ⟨by decide, segmentLabels_total_inRange tableAAB (by decide)⟩

/-- C10: the segmentation fails (the clustering raises) on every table
with fewer than 3 records, and succeeds on every table with at least 3
records. -/
theorem segmentLabels_min_size (t : Table) :
    (t.length < 3 → segmentLabels t = none)
      ∧ (3 ≤ t.length → (segmentLabels t).isSome = true) := by
  constructor
  · intro h
    unfold segmentLabels fitPredict3
    rw [initCent3_eq_none (standPoints t) (by rw [standPoints_length]; exact h)]
    rfl
  · intro h
    obtain ⟨c, hc⟩ :=
      initCent3_eq_some (standPoints t) (by rw [standPoints_length]; exact h)
    unfold segmentLabels fitPredict3
    rw [hc]
    rfl

/-- Witness for C10: a 2-row table cannot be segmented, a 3-row table
can. -/
theorem segmentLabels_min_size_witness :
    (tableTwo.length < 3 ∧ segmentLabels tableTwo = none)
      ∧ (3 ≤ tableAAB.length ∧ (segmentLabels tableAAB).isSome = true) :=
  ⟨⟨by decide, (segmentLabels_min_size tableTwo).1 (by decide)⟩,
   ⟨by decide, (segmentLabels_min_size tableAAB).2 (by decide)⟩⟩

/-- Sum of a column shifted by a constant. -/
theorem sum_map_sub_const (l : List ℝ) (m : ℝ) :
    (l.map (fun x => x - m)).sum = l.sum - l.length * m := by
  induction l with
  | nil => simp
  | cons x xs ih =>
    simp only [List.map_cons, List.sum_cons, List.length_cons, ih]
    push_cast
    ring

/-- Centering a column around its mean gives sum zero. -/
theorem sum_centered (l : List ℝ) : (l.map (fun x => x - meanR l)).sum = 0 := by
  rcases eq_or_ne l [] with rfl | hne
  · simp
  · have hn : (l.length : ℝ) ≠ 0 :=
      Nat.cast_ne_zero.mpr (List.length_pos.mpr hne).ne'
    rw [sum_map_sub_const, meanR]
    field_simp

/-- Standardization written with a multiplicative scale factor. -/
theorem standardize_eq_mul (l : List ℝ) :
    standardize l = l.map (fun x => (x - meanR l) * (scaleOf l)⁻¹) := by
  unfold standardize
  simp only [div_eq_mul_inv]

/-- A standardized column sums to zero. -/
theorem sum_standardize (l : List ℝ) : (standardize l).sum = 0 := by
  rw [standardize_eq_mul, List.sum_map_mul_right, sum_centered, zero_mul]

/-- A standardized column has mean zero. -/
theorem meanR_standardize (l : List ℝ) : meanR (standardize l) = 0 := by
  unfold meanR
  rw [sum_standardize, zero_div]

/-- Population variance is nonnegative. -/
theorem popVar_nonneg (l : List ℝ) : 0 ≤ popVar l := by
  unfold popVar
  apply div_nonneg
  · apply List.sum_nonneg
    intro x hx
    rcases List.mem_map.mp hx with ⟨y, _, rfl⟩
    exact sq_nonneg _
  · exact Nat.cast_nonneg _

/-- For a non-constant column the squared scale is the variance. -/
theorem scaleOf_sq (l : List ℝ) (h : popVar l ≠ 0) :
    (scaleOf l)^2 = popVar l := by
  unfold scaleOf
  rw [if_neg h]
  exact Real.sq_sqrt (popVar_nonneg l)

/-- A standardized non-constant column has population variance one. -/
theorem popVar_standardize (l : List ℝ) (h : popVar l ≠ 0) :
    popVar (standardize l) = 1 := by
  have hm := meanR_standardize l
  have hc : ((scaleOf l)⁻¹)^2 = (popVar l)⁻¹ := by
    rw [inv_pow, scaleOf_sq l h]
  have h2 : ((l.map (fun x => (x - meanR l)^2)).sum) / (l.length : ℝ) ≠ 0 := h
  obtain ⟨hS, hn⟩ := div_ne_zero_iff.mp h2
  unfold popVar
  simp only [hm, sub_zero, standardize_length]
  rw [standardize_eq_mul, List.map_map]
  have hcomp : ((fun x : ℝ => x^2) ∘ fun x => (x - meanR l) * (scaleOf l)⁻¹)
      = fun x => (x - meanR l)^2 * ((scaleOf l)⁻¹)^2 := by
    funext x
    simp [Function.comp, mul_pow]
  rw [hcomp, List.sum_map_mul_right, hc]
  unfold popVar
  field_simp

/-- A zero-variance (constant or empty) column still has variance zero
after standardization: the scale is replaced by 1 and the column is
only centered. -/
theorem popVar_standardize_zero (l : List ℝ) (h : popVar l = 0) :
    popVar (standardize l) = 0 := by
  have hm := meanR_standardize l
  have hs : scaleOf l = 1 := by
    unfold scaleOf
    rw [if_pos h]
  have h2 : ((l.map (fun x => (x - meanR l)^2)).sum) / (l.length : ℝ) = 0 := h
  unfold popVar
  simp only [hm, sub_zero, standardize_length]
  unfold standardize
  rw [hs]
  simp only [div_one, List.map_map]
  have hcomp : ((fun x : ℝ => x^2) ∘ fun x => x - meanR l)
      = fun x => (x - meanR l)^2 := by
    funext x
    simp [Function.comp]
  rw [hcomp]
  exact h2

/-- C6 (amended): standardization maps every feature column of every
table to mean zero, and to unit population variance exactly when the
column has nonzero population variance (a zero-variance feature keeps
scale 1 and stays at variance 0); the 3-cluster partition is computed
over these standardized features. -/
theorem standardize_spec (t : Table) (j : Fin 3) :
    meanR (standardize (featColR j t)) = 0
      ∧ (popVar (standardize (featColR j t)) = 1 ↔ popVar (featColR j t) ≠ 0)
      ∧ segmentLabels t = fitPredict3 (standPoints t) := by
  refine ⟨meanR_standardize _, ⟨?_, popVar_standardize _⟩, rfl⟩
  intro h1 h0
  rw [popVar_standardize_zero _ h0] at h1
  exact zero_ne_one h1

/-- Witness for C6 on the sales column of a concrete table, exercising
the nonzero-variance direction of the equivalence. -/
theorem standardize_spec_witness :
    popVar (featColR 0 tableAAB) ≠ 0
      ∧ meanR (standardize (featColR 0 tableAAB)) = 0
      ∧ popVar (standardize (featColR 0 tableAAB)) = 1
      ∧ segmentLabels tableAAB = fitPredict3 (standPoints tableAAB) := by
  have hf : featOf 0 = Record.sales := rfl
  have hcol : featColR 0 tableAAB = [(10:ℝ), 20, 30] := by
    norm_num [featColR, liftR, tableAAB, hf]
  have hmean : meanR [(10:ℝ), 20, 30] = 20 := by
    norm_num [meanR]
  have hv : popVar (featColR 0 tableAAB) ≠ 0 := by
    rw [hcol]
    norm_num [popVar, hmean]
  exact ⟨hv, (standardize_spec tableAAB 0).1,
    ((standardize_spec tableAAB 0).2.1).mpr hv,
    (standardize_spec tableAAB 0).2.2⟩

/-- C6 (counterexample): on the table whose Sales column is constant,
the standardized sales feature does not have unit variance. -/
theorem standardize_const_var_ne_one :
    popVar (standardize (featColR 0 tableConstSales)) ≠ 1 := by
  have hf : featOf 0 = Record.sales := rfl
  have hcol : featColR 0 tableConstSales = [(5:ℝ), 5, 5] := by
    norm_num [featColR, liftR, tableConstSales, hf]
  have hmean : meanR [(5:ℝ), 5, 5] = 5 := by
    norm_num [meanR]
  have hv : popVar [(5:ℝ), 5, 5] = 0 := by
    norm_num [popVar, hmean]
  have hs : scaleOf [(5:ℝ), 5, 5] = 1 := by
    simp [scaleOf, hv]
  have hst : standardize [(5:ℝ), 5, 5] = [0, 0, 0] := by
    norm_num [standardize, hmean, hs]
  rw [hcol, hst]
  norm_num [popVar, meanR]

/-- Zipping a list with itself pairs each element with itself. -/
theorem zip_self_eq_map (a : List ℝ) : a.zip a = a.map (fun x => (x, x)) := by
  induction a with
  | nil => rfl
  | cons x xs ih => simp [ih]

/-- The centered self-product sum is a sum of squares. -/
theorem covSum_self_eq (a : List ℝ) :
    covSum a a = (a.map (fun x => (x - meanR a)^2)).sum := by
  unfold covSum
  rw [zip_self_eq_map, List.map_map]
  refine congrArg List.sum (List.map_congr_left ?_)
  intro x _
  simp [Function.comp, pow_two]

/-- The centered self-product sum is nonnegative. -/
theorem covSum_self_nonneg (a : List ℝ) : 0 ≤ covSum a a := by
  rw [covSum_self_eq]
  apply List.sum_nonneg
  intro x hx
  rcases List.mem_map.mp hx with ⟨y, _, rfl⟩
  exact sq_nonneg _

/-- The centered product sum is symmetric in its two columns. -/
theorem covSum_comm (a b : List ℝ) : covSum a b = covSum b a := by
  unfold covSum
  rw [show b.zip a = (a.zip b).map Prod.swap from (List.zip_swap a b).symm,
    List.map_map]
  refine congrArg List.sum (List.map_congr_left ?_)
  intro p _
  simp only [Function.comp, Prod.fst_swap, Prod.snd_swap]
  ring

/-- The Pearson correlation of a non-constant column with itself is 1. -/
theorem corrOf_self (a : List ℝ) (h : covSum a a ≠ 0) : corrOf a a = 1 := by
  unfold corrOf
  rw [Real.mul_self_sqrt (covSum_self_nonneg a)]
  exact div_self h

/-- C5 (amended): for every loaded table the correlation matrix over
the five numeric columns is symmetric, and every diagonal entry at a
column of nonzero variance is 1 (a constant column gives NaN in pandas,
not 1). -/
theorem corrMatrix_symm_unitDiag (t : Table) :
    (∀ j k : Fin 5, corrMatrix t j k = corrMatrix t k j)
      ∧ ∀ i : Fin 5, covSum (numColR i t) (numColR i t) ≠ 0
          → corrMatrix t i i = 1 := by
  constructor
  · intro j k
    unfold corrMatrix corrOf
    rw [covSum_comm (numColR j t) (numColR k t)]
    ring
  · intro i h
    exact corrOf_self _ h

/-- Witness for C5, discharging the nonzero-variance hypothesis of the
diagonal part at the sales column of a concrete table. -/
theorem corrMatrix_symm_unitDiag_witness :
    (∀ j k : Fin 5, corrMatrix tableAAB j k = corrMatrix tableAAB k j)
      ∧ covSum (numColR 2 tableAAB) (numColR 2 tableAAB) ≠ 0
      ∧ corrMatrix tableAAB 2 2 = 1 := by
  have hf : numFieldOf 2 = Record.sales := rfl
  have hcol : numColR 2 tableAAB = [(10:ℝ), 20, 30] := by
    norm_num [numColR, liftR, tableAAB, hf]
  have hmean : meanR [(10:ℝ), 20, 30] = 20 := by
    norm_num [meanR]
  have h : covSum (numColR 2 tableAAB) (numColR 2 tableAAB) ≠ 0 := by
    rw [hcol]
    norm_num [covSum, hmean]
  exact ⟨(corrMatrix_symm_unitDiag tableAAB).1, h,
    (corrMatrix_symm_unitDiag tableAAB).2 2 h⟩

/-- C5 (counterexample): on the table whose Sales column is constant,
the diagonal correlation entry for sales is not 1 (pandas reports NaN
there; the embedding's division-by-zero convention gives 0). -/
theorem corrMatrix_const_diag_ne_one :
    corrMatrix tableConstSales 2 2 ≠ 1 := by
  have hf : numFieldOf 2 = Record.sales := rfl
  have hcol : numColR 2 tableConstSales = [(5:ℝ), 5, 5] := by
    norm_num [numColR, liftR, tableConstSales, hf]
  have hmean : meanR [(5:ℝ), 5, 5] = 5 := by
    norm_num [meanR]
  have hcov : covSum [(5:ℝ), 5, 5] [(5:ℝ), 5, 5] = 0 := by
    norm_num [covSum, hmean]
  unfold corrMatrix corrOf
  rw [hcol, hcov]
  norm_num

/-- C9: main terminates with exit code 0 exactly when all dependencies
import, the data file exists, and no exception is raised; otherwise it
terminates with exit code 1, and the transcript contains a failure
message exactly in that case. -/
theorem mainExit_spec (e : SysEnv) :
    (mainExit e = 0
        ↔ (checkDependencies e = true ∧ e.dataFileExists = true
            ∧ e.analysisRaises = false))
      ∧ (mainExit e = 1 ↔ errorPrinted e = true)
      ∧ (mainExit e = 0 ∨ mainExit e = 1) := by
  rcases e with ⟨p, n, mp, sb, pl, sk, f, a⟩
  cases p <;> cases n <;> cases mp <;> cases sb <;> cases pl <;> cases sk <;>
    cases f <;> cases a <;> decide
